import Mathlib

/-!
Verification of the display-switch core (src/display_control.rs).

Shallow embedding: the three leaf components of the module are translated
into pure Lean definitions.

* Display Identity: `display_name` and `are_display_names_unique` over a
  `DisplayInfo` record of optional metadata fields (the Linux field
  selection, which is the richest one in the source).
* DDC/CI Switch Executor: `try_switch_display` over a `Handle` whose
  register read and write operations are modelled as functions returning
  `Except`; the hardware writes the call issues are collected in a trace
  (`SwitchResult.writes`) together with the emitted log events.
* External Command Runner: `try_run_command` and `run_command`,
  parametrised over the shell tokenizer (the external shell_words crate),
  the process spawner (the OS) and the UTF-8 decoder (the standard
  library), each modelled as a function argument; spawn attempts are
  collected in a trace recording the stdin binding.

Rust machine integers: register values are u16, masking `& 0xff` is
modelled as `% 256` on `Nat`.
-/

namespace DisplaySwitch

/-- VCP feature code for input select (`const INPUT_SELECT: u8 = 0x60`). -/
def INPUT_SELECT : Nat := 0x60

/-- `const RETRY_DELAY_MS: u64 = 3000` (consumed by an external scheduler). -/
def RETRY_DELAY_MS : Nat := 3000

/-- The single-quote character, used by `display_name` via
`format!("\x7b\x7d")` with a quoted argument. -/
def squote : String := (Char.ofNat 39).toString

/-- OS-reported display metadata (`display.info`), Linux field selection:
each of the three fields is optional. -/
structure DisplayInfo where
  manufacturer_id : Option String
  model_name : Option String
  serial_number : Option String
deriving DecidableEq, Repr

/-- `display_name(display, index)`: joins the metadata fields that are
present with a single space, wraps the result in single quotes, and when
an index is given appends " #<index>" before the closing quote.
Mirrors the `vec![..].into_iter().flatten().join(" ")` construction and the
two `format!` branches of the source. -/
def display_name (display : DisplayInfo) (index : Option Nat) : String :=
  let display_id := String.intercalate " "
    (([display.manufacturer_id, display.model_name, display.serial_number]).filterMap id)
  match index with
  | some i => squote ++ display_id ++ " #" ++ toString i ++ squote
  | none => squote ++ display_id ++ squote

/-- Modelled from the spec: `label(display, ordinal)` builds the label by
joining the non-empty (present) metadata fields with a single space,
wrapping in single quotes, and appending " #<ordinal>" before the closing
quote when an ordinal is supplied. Stated separately from `display_name`
so the code can be compared with the spec wording. -/
def label_spec (display : DisplayInfo) (ordinal : Option Nat) : String :=
  let joined := String.intercalate " "
    (([display.manufacturer_id, display.model_name, display.serial_number]).filterMap id)
  let suffix := match ordinal with
    | some n => " #" ++ toString n
    | none => ""
  squote ++ joined ++ suffix ++ squote

/-- Loop of `are_display_names_unique`: `HashSet::insert` returns false on
a duplicate, and `Iterator::all` short-circuits there. The set of already
seen names is modelled as a list. -/
def uniqueLoop : List DisplayInfo → List String → Bool
  | [], _ => true
  | d :: rest, seen =>
    let n := display_name d none
    if n ∈ seen then false else uniqueLoop rest (n :: seen)

/-- `are_display_names_unique(displays)` from the source. -/
def are_display_names_unique (displays : List DisplayInfo) : Bool :=
  uniqueLoop displays []

end DisplaySwitch

namespace DisplaySwitch

/-- Log severity levels of the log crate used at the call sites. -/
inductive Severity
  | debugLevel
  | infoLevel
  | warnLevel
  | errorLevel
deriving DecidableEq, Repr

/-- The log events the module emits, one constructor per call site, with
the payload each message interpolates. -/
inductive LogEvent
  | infoAlreadySet (name : String) (input : Nat)
  | warnReadFailed (name : String) (err : String)
  | debugSetting (name : String) (input : Nat)
  | infoSet (name : String) (input : Nat)
  | errorSetFailed (name : String) (input : Nat) (err : String)
  | infoCommandExecuted (cmd : String)
  | errorCommandFailed (cmd : String) (msg : String)
deriving DecidableEq, Repr

/-- Severity of each log event, matching the logging call in the source. -/
def LogEvent.severity : LogEvent → Severity
  | .infoAlreadySet .. => .infoLevel
  | .warnReadFailed .. => .warnLevel
  | .debugSetting .. => .debugLevel
  | .infoSet .. => .infoLevel
  | .errorSetFailed .. => .errorLevel
  | .infoCommandExecuted .. => .infoLevel
  | .errorCommandFailed .. => .errorLevel

/-- A display handle (`ddc_hi::Handle`): the register read and write
capabilities, each returning a result. `getVcp` takes the feature code and
returns the raw u16 register value; `setVcp` takes the feature code and the
value to write. Errors are modelled as strings (their formatted debug
output, which the source only logs). -/
structure Handle where
  getVcp : Nat → Except String Nat
  setVcp : Nat → Nat → Except String Unit

/-- Outcome trace of one `try_switch_display` call: the hardware writes it
issued, as (feature code, value) pairs in order, and the log events. -/
structure SwitchResult where
  writes : List (Nat × Nat)
  logs : List LogEvent
deriving DecidableEq, Repr

/-- `try_switch_display(handle, display_name, input)`: read the
input-select register; on success compare the low byte against the encoded
input value and return without a write when they are equal; otherwise (or
when the read fails) issue exactly one write of the encoded value to the
input-select register, logging the outcome. `input` is the u16 value of
`input.value()`; `raw % 256` models `raw_source.value() & 0xff`. -/
def try_switch_display (handle : Handle) (name : String) (input : Nat) : SwitchResult :=
  match handle.getVcp INPUT_SELECT with
  | .ok raw =>
    if raw % 256 == input then
      { writes := [], logs := [.infoAlreadySet name input] }
    else
      match handle.setVcp INPUT_SELECT input with
      | .ok _ =>
        { writes := [(INPUT_SELECT, input)],
          logs := [.debugSetting name input, .infoSet name input] }
      | .error e =>
        { writes := [(INPUT_SELECT, input)],
          logs := [.debugSetting name input, .errorSetFailed name input e] }
  | .error readErr =>
    match handle.setVcp INPUT_SELECT input with
    | .ok _ =>
      { writes := [(INPUT_SELECT, input)],
        logs := [.warnReadFailed name readErr, .debugSetting name input, .infoSet name input] }
    | .error e =>
      { writes := [(INPUT_SELECT, input)],
        logs := [.warnReadFailed name readErr, .debugSetting name input,
                 .errorSetFailed name input e] }

/-- How the child standard input stream is bound
(`Stdio::null()` versus the default inheritance). -/
inductive StdinMode
  | nullDev
  | inherited
deriving DecidableEq, Repr

/-- One attempted process spawn: executable, argument vector, and the
stdin binding configured on the command. -/
structure SpawnRecord where
  executable : String
  args : List String
  stdinMode : StdinMode
deriving DecidableEq, Repr

/-- `std::process::Output`: the exit code (`None` when the process was
terminated by a signal) and the captured output byte buffers. -/
structure ProcOutput where
  code : Option Int
  stdout : List Nat
  stderr : List Nat
deriving DecidableEq, Repr

/-- `ExitStatus::success()`: the process exited with code zero. -/
def ProcOutput.success (o : ProcOutput) : Bool := o.code == some 0

/-- Outcome trace of one `try_run_command` call: the returned result, the
spawn attempts, and the log events. -/
structure RunResult where
  result : Except String Unit
  spawns : List SpawnRecord
  logs : List LogEvent
deriving Repr

/-- `try_run_command(execute_command)`, parametrised over its three
external effects: `splitFn` models `shell_words::split` (POSIX shell
tokenization), `spawn` models running `Command::new(..).args(..).output()`
for a given executable and argument vector, and `decode` models
`String::from_utf8` on a byte buffer. Tokenization and spawn failures
propagate via `?`; a non-successful exit builds the error message from the
exit status and the captured streams exactly as the source formats it. -/
def try_run_command (splitFn : String → Except String (List String))
    (spawn : String → List String → Except String ProcOutput)
    (decode : List Nat → Option String)
    (execute_command : String) : RunResult :=
  match splitFn execute_command with
  | .error e => { result := .error e, spawns := [], logs := [] }
  | .ok [] => { result := .ok (), spawns := [], logs := [] }
  | .ok (executable :: arguments) =>
    let attempt : SpawnRecord :=
      { executable := executable, args := arguments, stdinMode := .nullDev }
    match spawn executable arguments with
    | .error e => { result := .error e, spawns := [attempt], logs := [] }
    | .ok output =>
      if output.success then
        { result := .ok (), spawns := [attempt],
          logs := [.infoCommandExecuted execute_command] }
      else
        let msg := match output.code with
          | some code => "Exited with status " ++ toString code ++ "\n"
          | none => "Exited because of a signal\n"
        let stdoutPart := if output.stdout.isEmpty then "No stdout\n"
          else match decode output.stdout with
            | some s => "Stdout = [" ++ s ++ "]" ++ "\n"
            | none => "Stdout was not UTF-8"
        let stderrPart := if output.stderr.isEmpty then "No stderr\n"
          else match decode output.stderr with
            | some s => "Stderr = [" ++ s ++ "]" ++ "\n"
            | none => "Stderr was not UTF-8"
        { result := .error (msg ++ " " ++ stdoutPart ++ " " ++ stderrPart),
          spawns := [attempt], logs := [] }

/-- Observable outcome of `run_command`, which itself returns unit: the
spawn attempts and the log events. The inner result has been consumed. -/
structure CommandRun where
  spawns : List SpawnRecord
  logs : List LogEvent
deriving Repr

/-- `run_command(execute_command)`: runs `try_run_command` and consumes a
failure by logging it at error level (`unwrap_or_else(|err| error!(..))`). -/
def run_command (splitFn : String → Except String (List String))
    (spawn : String → List String → Except String ProcOutput)
    (decode : List Nat → Option String)
    (execute_command : String) : CommandRun :=
  let r := try_run_command splitFn spawn decode execute_command
  match r.result with
  | .ok _ => { spawns := r.spawns, logs := r.logs }
  | .error e =>
    { spawns := r.spawns, logs := r.logs ++ [.errorCommandFailed execute_command e] }

lemma str_append_assoc (a b c : String) : a ++ b ++ c = a ++ (b ++ c) := by
  apply String.ext
  simp [String.data_append, List.append_assoc]

lemma str_length_append (a b : String) : (a ++ b).length = a.length + b.length := by
  cases a with
  | mk da =>
    cases b with
    | mk db =>
      show (String.mk (da ++ db)).length = _
      simp [String.length]

lemma squote_length : squote.length = 1 := by decide

lemma str_append_empty (a : String) : a ++ "" = a := by
  apply String.ext
  simp [String.data_append]

/-- `needle` occurs as a contiguous substring of `hay`. -/
def containsStr (hay needle : String) : Prop :=
  ∃ a b : String, hay = a ++ needle ++ b

lemma containsStr_intro (a b c : String) : containsStr (a ++ b ++ c) b :=
  ⟨a, c, rfl⟩

/-- Whether a log event carries error severity. -/
def isErrorLog (l : LogEvent) : Bool :=
  match l.severity with
  | .errorLevel => true
  | _ => false

/-- C1. If the read of register 0x60 succeeds and the returned value masked
to its low 8 bits equals the desired input encoded value, then
`try_switch_display` issues no write to the hardware: a no-op switch never
issues a write. -/
theorem noop_switch_issues_no_write (handle : Handle) (name : String) (input raw : Nat)
    (hread : handle.getVcp INPUT_SELECT = .ok raw)
    (heq : raw % 256 = input) :
    (try_switch_display handle name input).writes = [] := by
  simp [try_switch_display, hread, heq]

/-- Witness for C1 at a concrete handle whose read returns 17. -/
theorem noop_switch_issues_no_write_witness :
    (Handle.mk (fun _ => .ok 17) (fun _ _ => .ok ())).getVcp INPUT_SELECT = .ok 17 ∧
    17 % 256 = 17 ∧
    (try_switch_display (Handle.mk (fun _ => .ok 17) (fun _ _ => .ok ())) "monitor" 17).writes
      = [] :=
  ⟨rfl, rfl, noop_switch_issues_no_write _ "monitor" 17 17 rfl rfl⟩

/-- C2. If the read of register 0x60 fails, or succeeds with a low-byte
value different from the desired input encoded value, then
`try_switch_display` issues exactly one write: the desired input encoded
value to register 0x60. -/
theorem mismatch_or_failed_read_issues_one_write (handle : Handle) (name : String) (input : Nat)
    (h : (∃ e, handle.getVcp INPUT_SELECT = .error e) ∨
         (∃ raw, handle.getVcp INPUT_SELECT = .ok raw ∧ raw % 256 ≠ input)) :
    (try_switch_display handle name input).writes = [(INPUT_SELECT, input)] := by
  rcases h with ⟨e, hread⟩ | ⟨raw, hread, hne⟩
  · cases hset : handle.setVcp INPUT_SELECT input <;>
      simp [try_switch_display, hread, hset]
  · cases hset : handle.setVcp INPUT_SELECT input <;>
      simp [try_switch_display, hread, hset, hne]

/-- Witness for C2 at a concrete handle whose read fails. -/
theorem mismatch_or_failed_read_issues_one_write_witness :
    (Handle.mk (fun _ => .error "nak") (fun _ _ => .ok ())).getVcp INPUT_SELECT
      = .error "nak" ∧
    (try_switch_display (Handle.mk (fun _ => .error "nak") (fun _ _ => .ok ()))
      "monitor" 18).writes = [(INPUT_SELECT, 18)] :=
  ⟨rfl, mismatch_or_failed_read_issues_one_write _ "monitor" 18 (Or.inl ⟨"nak", rfl⟩)⟩

/-- C3. `try_switch_display` has no failure mode: for every combination of
read outcome and write outcome the call returns a result (no raise, no
process termination), and its error-level log events are exactly one
write-failure message when a write was attempted and failed, and none
otherwise. -/
theorem switch_display_never_fails (readRes : Except String Nat) (writeRes : Except String Unit)
    (name : String) (input : Nat) :
    ∃ res : SwitchResult,
      try_switch_display (Handle.mk (fun _ => readRes) (fun _ _ => writeRes)) name input
        = res ∧
      res.logs.filter isErrorLog =
        (if (match readRes with
             | .ok raw => raw % 256 == input
             | .error _ => false) then []
         else match writeRes with
           | .ok _ => []
           | .error e => [.errorSetFailed name input e]) := by
  refine ⟨_, rfl, ?_⟩
  cases readRes with
  | ok raw =>
    by_cases h : (raw % 256 == input) = true
    · simp [try_switch_display, h, isErrorLog, LogEvent.severity, List.filter]
    · cases writeRes <;>
        simp [try_switch_display, h, isErrorLog, LogEvent.severity, List.filter]
  | error e =>
    cases writeRes <;>
      simp [try_switch_display, isErrorLog, LogEvent.severity, List.filter]

lemma display_name_length (d : DisplayInfo) (idx : Option Nat) :
    2 ≤ (display_name d idx).length := by
  cases idx with
  | none => simp [display_name, str_length_append, squote_length]
  | some i =>
    simp [display_name, str_length_append, squote_length]
    omega

lemma display_name_ne_empty (d : DisplayInfo) (idx : Option Nat) :
    display_name d idx ≠ "" := by
  intro h
  have h2 := display_name_length d idx
  rw [h] at h2
  simp [String.length] at h2

/-- C4. `display_name` agrees with the label construction the spec
describes (`label_spec`: present metadata fields joined with a single
space, wrapped in single quotes, ordinal appended as " #<ordinal>" before
the closing quote), has no failure mode, and never returns the empty
string. -/
theorem display_name_matches_label_spec (d : DisplayInfo) (idx : Option Nat) :
    display_name d idx = label_spec d idx ∧ display_name d idx ≠ "" := by
  refine ⟨?_, display_name_ne_empty d idx⟩
  cases idx with
  | none => simp [display_name, label_spec, str_append_empty]
  | some i => simp [display_name, label_spec, str_append_assoc]

/-- C10. Implicit shape facts: every `display_name` result is wrapped in
single quotes (hence never empty); with all metadata fields absent and no
ordinal it is exactly the two-character string consisting of two single
quotes; and `are_display_names_unique` on the empty collection is true. -/
theorem display_name_quoted_and_defaults (d : DisplayInfo) (idx : Option Nat) :
    (∃ s, display_name d idx = squote ++ s ++ squote) ∧
    display_name d idx ≠ "" ∧
    display_name ⟨none, none, none⟩ none = squote ++ squote ∧
    (squote ++ squote).length = 2 ∧
    are_display_names_unique [] = true := by
  refine ⟨?_, display_name_ne_empty d idx, ?_, by decide, rfl⟩
  · cases idx with
    | none => exact ⟨_, rfl⟩
    | some i =>
      refine ⟨String.intercalate " "
        (([d.manufacturer_id, d.model_name, d.serial_number]).filterMap id)
        ++ " #" ++ toString i, ?_⟩
      simp [display_name, str_append_assoc]
  · simp [display_name, String.intercalate, str_append_empty]

lemma uniqueLoop_spec (ds : List DisplayInfo) :
    ∀ seen : List String,
      uniqueLoop ds seen = true ↔
        ((ds.map (fun d => display_name d none)).Nodup ∧
         ∀ n ∈ ds.map (fun d => display_name d none), n ∉ seen) := by
  induction ds with
  | nil => intro seen; simp [uniqueLoop]
  | cons d rest ih =>
    intro seen
    by_cases h : display_name d none ∈ seen
    · simp only [uniqueLoop, if_pos h]
      constructor
      · intro hfalse; cases hfalse
      · rintro ⟨-, hall⟩
        have hmem : display_name d none ∈
            List.map (fun d => display_name d none) (d :: rest) := by simp
        exact (hall _ hmem h).elim
    · simp only [uniqueLoop, if_neg h, ih]
      constructor
      · rintro ⟨hnd, hall⟩
        refine ⟨?_, ?_⟩
        · simp only [List.map_cons, List.nodup_cons]
          refine ⟨fun hmem => ?_, hnd⟩
          have := hall _ hmem
          simp at this
        · intro n hn
          simp only [List.map_cons, List.mem_cons] at hn
          rcases hn with rfl | hn
          · exact h
          · have := hall _ hn
            simp at this
            exact this.2
      · rintro ⟨hnd, hall⟩
        simp only [List.map_cons, List.nodup_cons] at hnd
        refine ⟨hnd.2, ?_⟩
        intro n hn
        simp only [List.mem_cons]
        push_neg
        refine ⟨fun heq => hnd.1 (heq ▸ hn), hall _ (by simp [hn])⟩

/-- C5. `are_display_names_unique` returns true iff the labels
`display_name d none` of the displays in the collection are pairwise
distinct; in particular it returns false whenever a duplicate label
exists. -/
theorem are_display_names_unique_iff_nodup (displays : List DisplayInfo) :
    are_display_names_unique displays = true ↔
      (displays.map (fun d => display_name d none)).Nodup := by
  rw [are_display_names_unique, uniqueLoop_spec]
  simp

/-- C6. When tokenization yields zero tokens, `try_run_command` succeeds
as a no-op and attempts no process spawn. -/
theorem empty_tokenization_is_noop (splitFn : String → Except String (List String))
    (spawn : String → List String → Except String ProcOutput)
    (decode : List Nat → Option String) (cmd : String)
    (h : splitFn cmd = .ok []) :
    (try_run_command splitFn spawn decode cmd).result = .ok () ∧
    (try_run_command splitFn spawn decode cmd).spawns = [] := by
  simp [try_run_command, h]

/-- Witness for C6: a tokenizer that returns zero tokens on the empty
command line. -/
theorem empty_tokenization_is_noop_witness :
    ((fun (_ : String) => (Except.ok [] : Except String (List String))) ""
      = Except.ok []) ∧
    (try_run_command (fun _ => Except.ok []) (fun _ _ => Except.error "unused")
        (fun _ => none) "").result = .ok () ∧
    (try_run_command (fun _ => Except.ok []) (fun _ _ => Except.error "unused")
        (fun _ => none) "").spawns = [] :=
  ⟨rfl, empty_tokenization_is_noop _ _ _ "" rfl⟩

/-- C7. The inner execution fails exactly when tokenization fails, the
spawn fails, the process exits non-zero, or the process is terminated by a
signal; and `run_command` consumes any such failure by appending a single
error-level log event, never escalating (it always returns a trace). -/
theorem run_command_failure_classification (splitFn : String → Except String (List String))
    (spawn : String → List String → Except String ProcOutput)
    (decode : List Nat → Option String) (cmd : String) :
    ((try_run_command splitFn spawn decode cmd).result.isOk = false ↔
      (∃ e, splitFn cmd = .error e) ∨
      (∃ exe args, splitFn cmd = .ok (exe :: args) ∧
        ((∃ e, spawn exe args = .error e) ∨
         (∃ o, spawn exe args = .ok o ∧
           ((∃ c, o.code = some c ∧ c ≠ 0) ∨ o.code = none))))) ∧
    (run_command splitFn spawn decode cmd).logs =
      (try_run_command splitFn spawn decode cmd).logs ++
        (match (try_run_command splitFn spawn decode cmd).result with
         | .ok _ => []
         | .error e => [.errorCommandFailed cmd e]) := by
  constructor
  · cases hsplit : splitFn cmd with
    | error e =>
      have hres : (try_run_command splitFn spawn decode cmd).result = .error e := by
        simp [try_run_command, hsplit]
      exact iff_of_true (by rw [hres]; rfl) (Or.inl ⟨e, rfl⟩)
    | ok tokens =>
      cases tokens with
      | nil =>
        have hres : (try_run_command splitFn spawn decode cmd).result = .ok () := by
          simp [try_run_command, hsplit]
        refine iff_of_false (by rw [hres]; decide) ?_
        rintro (⟨e, he⟩ | ⟨exe, args, hx, -⟩)
        · cases he
        · simp at hx
      | cons exe args =>
        cases hspawn : spawn exe args with
        | error e =>
          have hres : (try_run_command splitFn spawn decode cmd).result = .error e := by
            simp [try_run_command, hsplit, hspawn]
          exact iff_of_true (by rw [hres]; rfl)
            (Or.inr ⟨exe, args, rfl, Or.inl ⟨e, hspawn⟩⟩)
        | ok o =>
          by_cases hsucc : o.success = true
          · have hcode : o.code = some 0 := by
              simpa [ProcOutput.success] using hsucc
            have hres : (try_run_command splitFn spawn decode cmd).result = .ok () := by
              simp [try_run_command, hsplit, hspawn, hsucc]
            refine iff_of_false (by rw [hres]; decide) ?_
            rintro (⟨e, he⟩ | ⟨exe1, args1, hx, hrest⟩)
            · cases he
            · simp only [Except.ok.injEq, List.cons.injEq] at hx
              obtain ⟨rfl, rfl⟩ := hx
              rcases hrest with ⟨e, he⟩ | ⟨o1, ho1, hbad⟩
              · rw [hspawn] at he; cases he
              · rw [hspawn] at ho1
                simp only [Except.ok.injEq] at ho1
                subst ho1
                rcases hbad with ⟨c, hc, hcne⟩ | hnone
                · rw [hcode] at hc
                  simp only [Option.some.injEq] at hc
                  exact hcne hc.symm
                · rw [hcode] at hnone; cases hnone
          · have hcode : o.code ≠ some 0 := by
              simpa [ProcOutput.success] using hsucc
            have hres : ∃ m, (try_run_command splitFn spawn decode cmd).result = .error m := by
              simp [try_run_command, hsplit, hspawn, hsucc]
            obtain ⟨m, hres⟩ := hres
            refine iff_of_true (by rw [hres]; rfl) ?_
            refine Or.inr ⟨exe, args, rfl, Or.inr ⟨o, hspawn, ?_⟩⟩
            cases ho : o.code with
            | none => exact Or.inr rfl
            | some c =>
              exact Or.inl ⟨c, rfl, fun hc => hcode (by rw [ho, hc])⟩
  · cases hres : (try_run_command splitFn spawn decode cmd).result with
    | ok u => simp [run_command, hres]
    | error e => simp [run_command, hres]

/-- Whether a spawn attempt has its stdin bound to the null source. -/
def stdinIsNull (sr : SpawnRecord) : Bool :=
  match sr.stdinMode with
  | .nullDev => true
  | .inherited => false

/-- C9. Every process spawn attempted by the command runner has its
standard input bound to the null source, never inherited from the
parent. -/
theorem spawned_stdin_always_null (splitFn : String → Except String (List String))
    (spawn : String → List String → Except String ProcOutput)
    (decode : List Nat → Option String) (cmd : String) :
    (try_run_command splitFn spawn decode cmd).spawns.all stdinIsNull = true ∧
    (run_command splitFn spawn decode cmd).spawns.all stdinIsNull = true := by
  have hmain : (try_run_command splitFn spawn decode cmd).spawns.all stdinIsNull = true := by
    cases hsplit : splitFn cmd with
    | error e => simp [try_run_command, hsplit]
    | ok tokens =>
      cases tokens with
      | nil => simp [try_run_command, hsplit]
      | cons exe args =>
        cases hspawn : spawn exe args with
        | error e => simp [try_run_command, hsplit, hspawn, stdinIsNull]
        | ok o =>
          by_cases hsucc : o.success = true <;>
            simp [try_run_command, hsplit, hspawn, hsucc, stdinIsNull]
  refine ⟨hmain, ?_⟩
  have hsp : (run_command splitFn spawn decode cmd).spawns
      = (try_run_command splitFn spawn decode cmd).spawns := by
    cases hres : (try_run_command splitFn spawn decode cmd).result with
    | ok u => simp [run_command, hres]
    | error e => simp [run_command, hres]
  rw [hsp]
  exact hmain

lemma str_empty_append (a : String) : "" ++ a = a := by
  apply String.ext
  simp [String.data_append]

lemma containsStr_self (x : String) : containsStr x x :=
  ⟨"", "", by rw [str_empty_append, str_append_empty]⟩

lemma containsStr_with_suffix (n s : String) : containsStr (n ++ s) n :=
  ⟨"", s, by rw [str_empty_append]⟩

lemma containsStr_appendLeft (a b n : String) (h : containsStr a n) :
    containsStr (a ++ b) n := by
  obtain ⟨x, y, hx⟩ := h
  exact ⟨x, y ++ b, by rw [hx]; simp [str_append_assoc]⟩

lemma containsStr_appendRight (a b n : String) (h : containsStr b n) :
    containsStr (a ++ b) n := by
  obtain ⟨x, y, hx⟩ := h
  exact ⟨a ++ x, y, by rw [hx]; simp [str_append_assoc]⟩

/-- C8. For a spawned process that does not succeed, the failure message
contains the numeric exit code when one exists, notes signal termination
when there is none, and includes the captured stdout and stderr, each
rendered as UTF-8 text when decodable and otherwise reported as not valid
text without losing the fact that output existed. -/
theorem failure_message_reports_status_and_output
    (splitFn : String → Except String (List String))
    (spawn : String → List String → Except String ProcOutput)
    (decode : List Nat → Option String) (cmd exe : String) (args : List String)
    (o : ProcOutput)
    (hsplit : splitFn cmd = .ok (exe :: args))
    (hspawn : spawn exe args = .ok o)
    (hfail : o.code ≠ some 0) :
    ∃ m, (try_run_command splitFn spawn decode cmd).result = .error m ∧
      (∀ c, o.code = some c → containsStr m (toString c)) ∧
      (o.code = none → containsStr m "Exited because of a signal") ∧
      (o.stdout = [] → containsStr m "No stdout") ∧
      (∀ s, decode o.stdout = some s → o.stdout ≠ [] →
        containsStr m ("Stdout = [" ++ s ++ "]")) ∧
      (decode o.stdout = none → o.stdout ≠ [] →
        containsStr m "Stdout was not UTF-8") ∧
      (o.stderr = [] → containsStr m "No stderr") ∧
      (∀ s, decode o.stderr = some s → o.stderr ≠ [] →
        containsStr m ("Stderr = [" ++ s ++ "]")) ∧
      (decode o.stderr = none → o.stderr ≠ [] →
        containsStr m "Stderr was not UTF-8") := by
  have hsucc : o.success = false := by
    simp only [ProcOutput.success]
    exact beq_eq_false_iff_ne.mpr hfail
  refine ⟨(match o.code with
      | some code => "Exited with status " ++ toString code ++ "\n"
      | none => "Exited because of a signal\n") ++ " " ++
    (if o.stdout.isEmpty then "No stdout\n"
     else match decode o.stdout with
       | some s => "Stdout = [" ++ s ++ "]" ++ "\n"
       | none => "Stdout was not UTF-8") ++ " " ++
    (if o.stderr.isEmpty then "No stderr\n"
     else match decode o.stderr with
       | some s => "Stderr = [" ++ s ++ "]" ++ "\n"
       | none => "Stderr was not UTF-8"),
    ?_, ?_, ?_, ?_, ?_, ?_, ?_, ?_, ?_⟩
  · simp [try_run_command, hsplit, hspawn, hsucc]
  · intro c hc
    rw [hc]
    exact containsStr_appendLeft _ _ _ (containsStr_appendLeft _ _ _
      (containsStr_appendLeft _ _ _ (containsStr_appendLeft _ _ _
        (containsStr_intro "Exited with status " (toString c) "\n"))))
  · intro hc
    rw [hc]
    have hlit : ("Exited because of a signal\n" : String)
        = "Exited because of a signal" ++ "\n" := rfl
    rw [hlit]
    exact containsStr_appendLeft _ _ _ (containsStr_appendLeft _ _ _
      (containsStr_appendLeft _ _ _ (containsStr_appendLeft _ _ _
        (containsStr_with_suffix "Exited because of a signal" "\n"))))
  · intro h0
    rw [h0]
    have hlit : ("No stdout\n" : String) = "No stdout" ++ "\n" := rfl
    simp only [List.isEmpty_nil, if_true, hlit]
    exact containsStr_appendLeft _ _ _ (containsStr_appendLeft _ _ _
      (containsStr_appendRight _ _ _ (containsStr_with_suffix "No stdout" "\n")))
  · intro s hdec hne
    have hemp : o.stdout.isEmpty = false := by
      cases ho : o.stdout with
      | nil => rw [ho] at hne; exact absurd rfl hne
      | cons a l => rfl
    rw [hemp]
    simp only [Bool.false_eq_true, if_false, hdec]
    exact containsStr_appendLeft _ _ _ (containsStr_appendLeft _ _ _
      (containsStr_appendRight _ _ _
        (containsStr_with_suffix ("Stdout = [" ++ s ++ "]") "\n")))
  · intro hdec hne
    have hemp : o.stdout.isEmpty = false := by
      cases ho : o.stdout with
      | nil => rw [ho] at hne; exact absurd rfl hne
      | cons a l => rfl
    rw [hemp]
    simp only [Bool.false_eq_true, if_false, hdec]
    exact containsStr_appendLeft _ _ _ (containsStr_appendLeft _ _ _
      (containsStr_appendRight _ _ _ (containsStr_self "Stdout was not UTF-8")))
  · intro h0
    rw [h0]
    have hlit : ("No stderr\n" : String) = "No stderr" ++ "\n" := rfl
    simp only [List.isEmpty_nil, if_true, hlit]
    exact containsStr_appendRight _ _ _
      (containsStr_with_suffix "No stderr" "\n")
  · intro s hdec hne
    have hemp : o.stderr.isEmpty = false := by
      cases ho : o.stderr with
      | nil => rw [ho] at hne; exact absurd rfl hne
      | cons a l => rfl
    rw [hemp]
    simp only [Bool.false_eq_true, if_false, hdec]
    exact containsStr_appendRight _ _ _
      (containsStr_with_suffix ("Stderr = [" ++ s ++ "]") "\n")
  · intro hdec hne
    have hemp : o.stderr.isEmpty = false := by
      cases ho : o.stderr with
      | nil => rw [ho] at hne; exact absurd rfl hne
      | cons a l => rfl
    rw [hemp]
    simp only [Bool.false_eq_true, if_false, hdec]
    exact containsStr_appendRight _ _ _
      (containsStr_self "Stderr was not UTF-8")

/-- Concrete tokenizer for the C8 witness: returns one token. -/
def splitFn0 : String → Except String (List String) := fun _ => .ok ["false"]

/-- Concrete spawner for the C8 witness: exit code 1, one stdout byte. -/
def spawn0 : String → List String → Except String ProcOutput :=
  fun _ _ => .ok ⟨some 1, [104], []⟩

/-- Concrete decoder for the C8 witness: decodes [104] as "h". -/
def decode0 : List Nat → Option String :=
  fun bs => if bs = [104] then some "h" else none

/-- Witness for C8 at a command that exits with status 1. -/
theorem failure_message_reports_status_and_output_witness :
    splitFn0 "false" = .ok ("false" :: []) ∧
    spawn0 "false" [] = .ok ⟨some 1, [104], []⟩ ∧
    (⟨some 1, [104], []⟩ : ProcOutput).code ≠ some 0 ∧
    (∃ m, (try_run_command splitFn0 spawn0 decode0 "false").result = .error m ∧
      (∀ c, (⟨some 1, [104], []⟩ : ProcOutput).code = some c →
        containsStr m (toString c)) ∧
      ((⟨some 1, [104], []⟩ : ProcOutput).code = none →
        containsStr m "Exited because of a signal") ∧
      ((⟨some 1, [104], []⟩ : ProcOutput).stdout = [] → containsStr m "No stdout") ∧
      (∀ s, decode0 (⟨some 1, [104], []⟩ : ProcOutput).stdout = some s →
        (⟨some 1, [104], []⟩ : ProcOutput).stdout ≠ [] →
        containsStr m ("Stdout = [" ++ s ++ "]")) ∧
      (decode0 (⟨some 1, [104], []⟩ : ProcOutput).stdout = none →
        (⟨some 1, [104], []⟩ : ProcOutput).stdout ≠ [] →
        containsStr m "Stdout was not UTF-8") ∧
      ((⟨some 1, [104], []⟩ : ProcOutput).stderr = [] → containsStr m "No stderr") ∧
      (∀ s, decode0 (⟨some 1, [104], []⟩ : ProcOutput).stderr = some s →
        (⟨some 1, [104], []⟩ : ProcOutput).stderr ≠ [] →
        containsStr m ("Stderr = [" ++ s ++ "]")) ∧
      (decode0 (⟨some 1, [104], []⟩ : ProcOutput).stderr = none →
        (⟨some 1, [104], []⟩ : ProcOutput).stderr ≠ [] →
        containsStr m "Stderr was not UTF-8")) :=
  ⟨rfl, rfl, by decide,
    failure_message_reports_status_and_output splitFn0 spawn0 decode0
      "false" "false" [] ⟨some 1, [104], []⟩ rfl rfl (by decide)⟩

end DisplaySwitch
